import Mathlib

/-!
Verification development for `goru` (`main.go`), an OpenBSD buildlet driver:
it fetches release artifacts per architecture, verifies their signatures,
provisions a raw qemu disk, runs a local HTTP control server and drives the
guest's serial console through a scripted install/build dialogue.

Go strings are shallowly embedded as `List Char` so that every definition is
executable and every concrete fact is decidable.
-/

set_option autoImplicit false

namespace Goru

/-- Go strings embedded as character lists. -/
abbrev GoStr := List Char

/-- Coerce a Lean string literal to the embedding. -/
def gs (s : String) : GoStr := s.toList

/-- Structural equality of Go strings (Go `==` on strings). -/
def goStrEq : GoStr → GoStr → Bool
  | [], [] => true
  | [], _ :: _ => false
  | _ :: _, [] => false
  | a :: as, b :: bs => a == b && goStrEq as bs

/-- Go `strings.HasPrefix s pre` (argument order: subject first). -/
def strStartsWith : GoStr → GoStr → Bool
  | _, [] => true
  | [], _ :: _ => false
  | c :: cs, p :: ps => c == p && strStartsWith cs ps

/-- Go `strings.Contains s sub`. -/
def goContainsSub (sub : GoStr) : GoStr → Bool
  | [] => strStartsWith [] sub
  | c :: cs => strStartsWith (c :: cs) sub || goContainsSub sub cs

/-- Membership of a name in a list of names, via Go string equality. -/
def memStr (xs : List GoStr) (f : GoStr) : Bool :=
  xs.any (fun x => goStrEq x f)

/-- Go `strings.Replace s old new 1`: replace the first occurrence of `old`
(searched left to right) by `new`. -/
def replaceFirst (old new : GoStr) : GoStr → GoStr
  | [] => if strStartsWith [] old then new else []
  | c :: cs =>
    if strStartsWith (c :: cs) old then new ++ (c :: cs).drop old.length
    else c :: replaceFirst old new cs

/-- Go `fmt.Sprintf format arg` for a format string holding exactly one `%s`
verb (as used on the artifact-set templates): the first `%s` is replaced by
the argument, everything else is copied. -/
def substVerb (sv : GoStr) : GoStr → GoStr
  | [] => []
  | '%' :: 's' :: rest => sv ++ rest
  | c :: rest => c :: substVerb sv rest

/-- Go `fmt.Fprintf w format` with NO operands, as the handlers call it on
`diskLayout` and `responseFile`: `%%` renders as `%`; any other verb has no
matching operand and renders as Go's `%!v(MISSING)`; a trailing lone `%`
renders as `%!(NOVERB)`. -/
def goFmtNoArgs : GoStr → GoStr
  | [] => []
  | '%' :: '%' :: rest => '%' :: goFmtNoArgs rest
  | ['%'] => gs "%!(NOVERB)"
  | '%' :: c :: rest => '%' :: '!' :: c :: (gs "(MISSING)") ++ goFmtNoArgs rest
  | c :: rest => c :: goFmtNoArgs rest

/-- Go `path.Join a b` for the already-clean, slash-free components this
program joins (a nonempty clean `a` and a component `b`). -/
def pathJoin (a b : GoStr) : GoStr :=
  if a.isEmpty then b else a ++ '/' :: b

/-- The `responseFile` constant (`install.conf` content) of `main.go`. -/
def responseFileL : GoStr := gs
  ("System hostname = buildlet\nWhich network interface = em0\nIPv4 address for em0 = dhcp\nPassword for root account = root\nDo you expect to run the X Window System = no\nChange the default console to com0 = yes\nWhich speed should com0 use = 115200\nSetup a user = gopher\nFull name for user gopher = Gopher Gopherson\nPassword for user gopher = gopher\nAllow root ssh login = no\nWhat timezone = US/Mountain\nWhich disk = wd0\nUse (W)hole disk MBR, whole disk (G)PT, (O)penBSD area or (E)dit? = whole\nUse (W)hole disk, use the (O)penBSD area or (E)dit the MBR? = whole\nUse (A)uto layout, (E)dit auto layout, or create (C)ustom layout = auto\nURL to autopartitioning template for disklabel = http://10.0.2.2:25706/disklabel\nLocation of sets = http\nhttp server? = 10.0.2.2:25706\nserver directory? = /pub\nSet name(s) = +* -x* -game* -man* +xbase* +site*-buildlet.tgz done\nDirectory does not contain SHA256.sig. Continue without verification = yes")

/-- The `diskLayout` constant of `main.go` (note the literal `%%`). -/
def diskLayoutL : GoStr := gs "/\t5G-*\t95%%\nswap\t1G\n"

/-- The `archMap` table of `main.go` (OpenBSD arch name to GOARCH). -/
def archMapL : List (GoStr × GoStr) :=
  [(gs "arm64", gs "arm64"), (gs "amd64", gs "amd64"), (gs "i386", gs "386"),
   (gs "octeon", gs "mips64"), (gs "armv7", gs "arm"), (gs "riscv64", gs "riscv64")]

/-- First-match association lookup via Go string equality. -/
def lookupAssoc (d : List (GoStr × GoStr)) (k : GoStr) : Option GoStr :=
  match d with
  | [] => none
  | (k2, v) :: rest => if goStrEq k2 k then some v else lookupAssoc rest k

/-- Go map read `archMap[a]` (missing key yields the empty string). -/
def archMapGet (a : GoStr) : GoStr := (lookupAssoc archMapL a).getD []

/-- The literal templates of `newSetList` in `main.go`. -/
def setTemplates : List GoStr :=
  [gs "SHA256.sig", gs "SHA256",
   gs "bsd", gs "bsd.mp", gs "bsd.rd", gs "index.txt",
   gs "base%s.tgz", gs "comp%s.tgz", gs "man%s.tgz", gs "xbase%s.tgz",
   gs "miniroot%s.img"]

/-- `newSetList sv` of `main.go`: substitute the version token into every
template that contains `%s`. -/
def newSetListL (sv : GoStr) : List GoStr :=
  setTemplates.map (fun s => if goContainsSub (gs "%s") s then substVerb sv s else s)

/-- HTTP method of a request reaching the control server's mux handler. -/
inductive Method
  | GET | POST | other
deriving DecidableEq

/-- Observable response of the control server's handler: a 200 body, an
empty 200 (nothing written), the file server's not-found answer, the
`http.Error` 500 answer, or the file server's directory answer. -/
inductive HResp
  | ok (body : GoStr)
  | empty
  | notFound
  | serverError
  | dirIndex
deriving DecidableEq

/-- Split a path on `/` (segments in order, empty segments included). -/
def splitSlash : GoStr → List GoStr
  | [] => [[]]
  | c :: cs =>
    if c = '/' then [] :: splitSlash cs
    else
      match splitSlash cs with
      | [] => [[c]]
      | g :: gs2 => (c :: g) :: gs2

/-- Go's lexical `path.Clean` on a rooted path, as the list of resolved
components: drop empty and `.` segments, resolve `..` against the previous
component (and against the root). -/
def cleanComps (p : GoStr) : List GoStr :=
  ((splitSlash p).filter (fun seg => !seg.isEmpty && !goStrEq seg (gs "."))).foldl
    (fun acc seg => if goStrEq seg (gs "..") then acc.dropLast else acc ++ [seg]) []

/-- Replace-or-add update of an association list (the effect of
`os.Create` + `io.Copy` on one file of a directory). -/
def setFile (d : List (GoStr × GoStr)) (k v : GoStr) : List (GoStr × GoStr) :=
  match d with
  | [] => [(k, v)]
  | (k2, v2) :: rest => if goStrEq k2 k then (k2, v) :: rest else (k2, v2) :: setFile rest k v

/-- Modelled from the spec: the external `net/http.FileServer` used at
`fileServer := http.FileServer(http.Dir(outDir))` — "a static file server
scoped to that directory; unknown paths yield the file server's standard
not-found behavior". The request path gets a leading slash if missing and is
lexically cleaned; the served directory is flat, so a single resolved
component naming a present file answers with that file's bytes, the root
answers with the directory page, and anything else is not found. -/
def fileServer (dir : List (GoStr × GoStr)) (p : GoStr) : HResp :=
  let q := if strStartsWith p (gs "/") then p else '/' :: p
  match cleanComps q with
  | [] => .dirIndex
  | [name] =>
    match lookupAssoc dir name with
    | some body => .ok body
    | none => .notFound
  | _ :: _ :: _ => .notFound

/-- The mux handler installed by `OpenBSD.Build` (lines 136-170 of
`main.go`), acting on the architecture's artifact directory `dir`.
`body` is the POST request body; `createOk` is the outcome of
`os.Create(outDir/sys.diff.b64)`; `copyOk` tells whether `io.Copy` drained
the whole body, and when it fails `nDelivered` is how many body bytes it had
already written. GET requests ignore those three inputs. The unknown-GET
branch only prints to stderr, writing nothing to the response. -/
def serve (dir : List (GoStr × GoStr)) (m : Method) (p : GoStr)
    (body : GoStr) (createOk copyOk : Bool) (nDelivered : Nat) :
    List (GoStr × GoStr) × HResp :=
  match m with
  | .GET =>
    if goStrEq p (gs "/disklabel") then (dir, .ok (goFmtNoArgs diskLayoutL))
    else if goStrEq p (gs "/install.conf") then (dir, .ok (goFmtNoArgs responseFileL))
    else if strStartsWith p (gs "/pub") then
      (dir, fileServer dir (replaceFirst (gs "/pub") (gs "/") p))
    else (dir, .empty)
  | .POST =>
    if createOk then
      let written := if copyOk then body else body.take nDelivered
      (setFile dir (gs "sys.diff.b64") written,
       if copyOk then .empty else .serverError)
    else (dir, .serverError)
  | .other => (dir, .empty)

/-- Answer of the release mirror for one requested file. -/
inductive MirrorResp
  | ok (content : GoStr)
  | notFound
  | netErr
deriving DecidableEq

/-- Errors `OpenBSD.Fetch` can return (http.Get failure; a non-`bsd.mp`
404; a local create/copy failure). -/
inductive FetchErr
  | net (f : GoStr)
  | missing (f : GoStr)
  | writeFail (f : GoStr)
deriving DecidableEq

/-- The loop of `OpenBSD.Fetch` (lines 257-290 of `main.go`): for each file
of the set, in order: download when the file is `SHA256.sig` or locally
missing; a transport error aborts; a 404 aborts unless the file is
`bsd.mp`, which is skipped; otherwise the file is created locally.
`localFiles` is the set of locally present names, `log` accumulates the
mirror requests made. The enclosing `MkdirAll` is not modelled. -/
def fetchGo (mirror : GoStr → MirrorResp) (writeOk : GoStr → Bool) :
    List GoStr → List GoStr → List GoStr → Except FetchErr (List GoStr) × List GoStr
  | [], localFiles, log => (.ok localFiles, log)
  | f :: rest, localFiles, log =>
    if goStrEq f (gs "SHA256.sig") || !memStr localFiles f then
      let log2 := log ++ [f]
      match mirror f with
      | .netErr => (.error (.net f), log2)
      | .notFound =>
        if goStrEq f (gs "bsd.mp") then fetchGo mirror writeOk rest localFiles log2
        else (.error (.missing f), log2)
      | .ok _ =>
        if writeOk f then fetchGo mirror writeOk rest (localFiles ++ [f]) log2
        else (.error (.writeFail f), log2)
    else fetchGo mirror writeOk rest localFiles log

/-- `OpenBSD.Fetch` over the substituted artifact set of version `sv`,
returning the final local file set (or the first error) and the list of
mirror requests performed. -/
def FetchR (mirror : GoStr → MirrorResp) (writeOk : GoStr → Bool)
    (sv : GoStr) (localFiles : List GoStr) :
    Except FetchErr (List GoStr) × List GoStr :=
  fetchGo mirror writeOk (newSetListL sv) localFiles []

/-- Error `OpenBSD.Verify` returns when a signify run exits non-zero. -/
inductive VerifyErr
  | failed (f : GoStr)
deriving DecidableEq

/-- The loop of `OpenBSD.Verify` (lines 99-121 of `main.go`). The presence
test is `os.Stat(file)` on the bare file name, i.e. resolved in the
process's current working directory — `cwd` lists the names present there —
while the signify command itself runs with `cmd.Dir` set to `dest/arch`.
Present files other than `SHA256` and `SHA256.sig` get a signify run
(`sigOk` is its exit status); the first failing run aborts with an error.
The returned list is the sequence of signify invocations performed. -/
def verifyGo (cwd : List GoStr) (sigOk : GoStr → Bool) :
    List GoStr → Except VerifyErr Unit × List GoStr
  | [] => (.ok (), [])
  | f :: rest =>
    if memStr cwd f then
      if goStrEq f (gs "SHA256") || goStrEq f (gs "SHA256.sig") then
        verifyGo cwd sigOk rest
      else if sigOk f then
        let r := verifyGo cwd sigOk rest
        (r.1, f :: r.2)
      else (.error (.failed f), [f])
    else verifyGo cwd sigOk rest

/-- One step of the `ExpectBatch` script: await a pattern or send a line. -/
inductive Batcher
  | bexp (pattern : GoStr)
  | bsnd (text : GoStr)

/-- Failure of an await step. -/
inductive DialogueErr
  | timeout (pattern : GoStr)

/-- Modelled from the spec: goexpect's `ExpectBatch` — "steps execute
strictly sequentially; a failed or timed-out await aborts the entire
dialogue", each await blocking until its pattern appears in the console
output or the timeout elapses. The console transcript is abstracted as the
per-await outcomes `outcomes : List Bool` (whether each successive awaited
pattern appears in time; a missing entry means it never does). Returns the
batch result and the texts actually sent. -/
def runBatch : List Batcher → List Bool → Except DialogueErr Unit × List GoStr
  | [], _ => (.ok (), [])
  | .bexp p :: rest, b :: bs =>
    if b then runBatch rest bs else (.error (.timeout p), [])
  | .bexp p :: _, [] => (.error (.timeout p), [])
  | .bsnd s :: rest, bs =>
    let r := runBatch rest bs
    (r.1, s :: r.2)

/-- The dialogue script of `OpenBSD.Build` (lines 214-245 of `main.go`) for
an architecture `arch`: firmware/boot, unattended install, login, and the
clone/build/test/upload workload, with `archMap[arch]` substituted into the
GOARCH steps. -/
def buildBatch (arch : GoStr) : List Batcher :=
  [.bexp (gs "boot>$"), .bsnd (gs "set tty com0\n"),
   .bexp (gs "boot>"), .bsnd (gs "\n"),
   .bexp (gs "utoinstall or"), .bsnd (gs "a\n"),
   .bexp (gs "Response file"), .bsnd (gs "http://10.0.2.2:25706/install.conf\n"),
   .bexp (gs "login:"), .bsnd (gs "root\n"),
   .bexp (gs "Password:"), .bsnd (gs "root\n"),
   .bexp (gs "buildlet#"),
   .bsnd (gs "env PKG_PATH=http://cdn.openbsd.org/%m pkg_add bash git go\n"),
   .bexp (gs "buildlet#"), .bsnd (gs "su - gopher\n"),
   .bexp (gs "buildlet\\$"), .bsnd (gs "git clone https://github.com/golang/sys\n"),
   .bexp (gs "buildlet\\$"), .bsnd (gs "cd sys/unix\n"),
   .bexp (gs "buildlet\\$"),
   .bsnd ((gs "env GOOS=openbsd GOARCH=") ++ archMapGet arch ++ (gs " ./mkall.sh\n")),
   .bexp (gs "buildlet\\$"),
   .bsnd ((gs "env GOOS=openbsd GOARCH=") ++ archMapGet arch ++ (gs " go test ./...\n")),
   .bexp (gs "buildlet\\$"),
   .bsnd (gs "git diff | openssl enc -base64 >/tmp/sys.diff.b64\n"),
   .bexp (gs "buildlet\\$"),
   .bsnd (gs "curl -d @/tmp/sys.diff.b64 http://10.0.2.2:25706/\n"),
   .bexp (gs "buildlet\\$"), .bsnd (gs "\n")]

/-- Observable events of one `OpenBSD.Build` call, in program order:
`term.MakeRaw`, the `go ser.ListenAndServe()` start, `qemu-img create`,
`dd` seeding, the qemu spawn, the `ExpectBatch` dialogue, and the deferred
`qemucmd.Close`, `ser.Close`, `term.Restore` releases. `logged` would be a
log write, which `Build` never performs. -/
inductive Event
  | makeRaw | serverStart | imgCreate | ddRun | spawn | expectRun
  | qemuClose | serverClose | termRestore
  | logged (msg : GoStr)
deriving DecidableEq

/-- Errors `OpenBSD.Build` can return. -/
inductive BuildErr
  | makeRawFail | imgCreateFail | spawnFail
deriving DecidableEq

/-- `OpenBSD.Build` (lines 124-248 of `main.go`) as a function of the
outcomes of its effectful steps, returning its result and its event trace.
Control flow is the source's: `term.MakeRaw` failure returns before the
server starts; the server goroutine is started and `ser.Close` deferred
before disk provisioning; `qemu-img create` failure is returned (running
the deferred releases); `ddcmd.Run()`'s outcome `ddOk` is discarded;
`SpawnWithArgs` failure is returned; the `ExpectBatch` result is discarded
(`_, _ =`) and `Build` returns nil. Deferred releases run LIFO on every
return path past their registration. -/
def BuildT (arch : GoStr) (makeRawOk imgOk ddOk spawnOk : Bool)
    (dial : List Bool) : Except BuildErr Unit × List Event :=
  if makeRawOk then
    let t0 : List Event := [.makeRaw, .serverStart]
    if imgOk then
      let t1 : List Event := t0 ++ [.imgCreate, .ddRun]
      if spawnOk then
        let _discarded := runBatch (buildBatch arch) dial
        let _ddOk := ddOk
        (.ok (), t1 ++ [.spawn, .expectRun, .qemuClose, .serverClose, .termRestore])
      else (.error .spawnFail, t1 ++ [.spawn, .serverClose, .termRestore])
    else (.error .imgCreateFail, t0 ++ [.imgCreate, .serverClose, .termRestore])
  else (.error .makeRawFail, [.makeRaw])

/-- One per-architecture target of the configuration table in `main`. -/
structure OpenBSDT where
  arch : GoStr
  pkgArch : GoStr
  qemuCmd : List GoStr
  sets : List GoStr

/-- The configuration table built in `main` (lines 321-405 of `main.go`),
for destination directory `dest` and smushed version `smushVer`, in source
order: arm64, amd64, i386, octeon, armv7, riscv64. -/
def mkSets (dest smushVer : GoStr) : List OpenBSDT :=
  [{ arch := gs "arm64", pkgArch := gs "aarch64", sets := newSetListL smushVer,
     qemuCmd := [gs "qemu-system-aarch64", gs "-nographic", gs "-m", gs "2048",
       gs "-net", gs "nic,model=e1000", gs "-drive",
       (gs "file=") ++ pathJoin (pathJoin dest (gs "amd64")) (gs "disk.raw") ++ (gs ",format=raw")] },
   { arch := gs "amd64", pkgArch := gs "amd64", sets := newSetListL smushVer,
     qemuCmd := [gs "qemu-system-x86_64", gs "-nographic", gs "-m", gs "2048",
       gs "-net", gs "nic,model=e1000", gs "-net", gs "user", gs "-drive",
       (gs "file=") ++ pathJoin (pathJoin dest (gs "amd64")) (gs "disk.raw") ++ (gs ",format=raw")] },
   { arch := gs "i386", pkgArch := gs "i386", sets := newSetListL smushVer,
     qemuCmd := [gs "qemu-system-i386", gs "-nographic", gs "-m", gs "2048",
       gs "-net", gs "nic,model=e1000", gs "-net", gs "user", gs "-drive",
       (gs "file=") ++ pathJoin (pathJoin dest (gs "i386")) (gs "disk.raw") ++ (gs ",format=raw")] },
   { arch := gs "octeon", pkgArch := gs "mips64", sets := newSetListL smushVer,
     qemuCmd := [gs "qemu-system-mips64", gs "-nographic", gs "-m", gs "2048",
       gs "-net", gs "nic,model=e1000", gs "-net", gs "user", gs "-drive",
       (gs "file=") ++ pathJoin (pathJoin dest (gs "mips64")) (gs "disk.raw") ++ (gs ",format=raw")] },
   { arch := gs "armv7", pkgArch := gs "arm", sets := newSetListL smushVer,
     qemuCmd := [gs "qemu-system-arm", gs "-nographic", gs "-m", gs "2048",
       gs "-net", gs "nic,model=e1000", gs "-net", gs "user", gs "-drive",
       (gs "file=") ++ pathJoin (pathJoin dest (gs "armv7")) (gs "disk.raw") ++ (gs ",format=raw")] },
   { arch := gs "riscv64", pkgArch := gs "riscv64", sets := newSetListL smushVer,
     qemuCmd := [gs "qemu-system-riscv64", gs "-nographic", gs "-m", gs "2048",
       gs "-net", gs "nic,model=e1000", gs "-net", gs "user", gs "-drive",
       (gs "file=") ++ pathJoin (pathJoin dest (gs "riscv64")) (gs "disk.raw") ++ (gs ",format=raw")] }]

/-- The argument following `-drive` in a qemu command line. -/
def driveArgOf : List GoStr → GoStr
  | [] => []
  | [_] => []
  | a :: b :: rest => if goStrEq a (gs "-drive") then b else driveArgOf (b :: rest)

/-- The disk image path inside a target's `-drive` argument
(`file=<path>,format=raw`): strip the 5-byte `file=` head and the 11-byte
`,format=raw` tail. -/
def drivePathOf (t : OpenBSDT) : GoStr :=
  let s := (driveArgOf t.qemuCmd).drop 5
  s.take (s.length - 11)

/-- The path at which `OpenBSD.Build` provisions the raw disk for `arch`:
`qemu-img create ... disk.raw` runs with `cmd.Dir = path.Join dest arch`. -/
def buildDiskPath (dest arch : GoStr) : GoStr :=
  pathJoin (pathJoin dest arch) (gs "disk.raw")

/-- Does a target's launch command reference the provisioner's disk path? -/
def checkDiskInv (dest : GoStr) (t : OpenBSDT) : Bool :=
  goStrEq (drivePathOf t) (buildDiskPath dest t.arch)

example : newSetListL (gs "74") =
    [gs "SHA256.sig", gs "SHA256", gs "bsd", gs "bsd.mp", gs "bsd.rd",
     gs "index.txt", gs "base74.tgz", gs "comp74.tgz", gs "man74.tgz",
     gs "xbase74.tgz", gs "miniroot74.img"] := by decide

example : goFmtNoArgs diskLayoutL = gs "/\t5G-*\t95%\nswap\t1G\n" := by decide

example : replaceFirst (gs "/pub") (gs "/") (gs "/pub/bsd") = gs "//bsd" := by decide

/-! ### Helper lemmas -/

theorem goStrEq_eq_true : ∀ a b : GoStr, goStrEq a b = true ↔ a = b := by
  intro a
  induction a with
  | nil => intro b; cases b <;> simp [goStrEq]
  | cons c cs ih =>
    intro b
    cases b with
    | nil => simp [goStrEq]
    | cons d ds => simp [goStrEq, ih]

theorem goStrEq_self (a : GoStr) : goStrEq a a = true :=
  (goStrEq_eq_true a a).2 rfl

theorem goStrEq_eq_false {a b : GoStr} (h : a ≠ b) : goStrEq a b = false := by
  cases he : goStrEq a b
  · rfl
  · exact absurd ((goStrEq_eq_true a b).1 he) h

theorem memStr_eq_true (xs : List GoStr) (f : GoStr) : memStr xs f = true ↔ f ∈ xs := by
  unfold memStr
  rw [List.any_eq_true]
  constructor
  · rintro ⟨x, hx, he⟩
    rw [goStrEq_eq_true] at he
    exact he ▸ hx
  · intro h
    exact ⟨f, h, goStrEq_self f⟩

theorem lookup_setFile_self (d : List (GoStr × GoStr)) (k v : GoStr) :
    lookupAssoc (setFile d k v) k = some v := by
  induction d with
  | nil => simp [setFile, lookupAssoc, goStrEq_self]
  | cons p rest ih =>
    obtain ⟨k2, v2⟩ := p
    by_cases h : goStrEq k2 k = true
    · simp [setFile, lookupAssoc, h]
    · simp only [Bool.not_eq_true] at h
      simp [setFile, lookupAssoc, h, ih]

theorem splitSlash_noSlash (f : GoStr) (h : '/' ∉ f) : splitSlash f = [f] := by
  induction f with
  | nil => rfl
  | cons c cs ih =>
    have hc : c ≠ '/' := fun he => h (he ▸ List.mem_cons_self c cs)
    have hcs : '/' ∉ cs := fun hm => h (List.mem_cons_of_mem c hm)
    simp only [splitSlash, if_neg hc, ih hcs]

theorem fetchGo_log_mono (mirror : GoStr → MirrorResp) (writeOk : GoStr → Bool)
    (fs : List GoStr) : ∀ (localFiles log : List GoStr) (a : GoStr),
    a ∈ log → a ∈ (fetchGo mirror writeOk fs localFiles log).2 := by
  induction fs with
  | nil => intro localFiles log a ha; simpa [fetchGo] using ha
  | cons f rest ih =>
    intro localFiles log a ha
    have hal : a ∈ log ++ [f] := List.mem_append_left _ ha
    by_cases hc : (goStrEq f (gs "SHA256.sig") || !memStr localFiles f) = true
    · cases hm : mirror f with
      | netErr => simpa [fetchGo, hc, hm] using hal
      | notFound =>
        by_cases hb : goStrEq f (gs "bsd.mp") = true
        · simpa [fetchGo, hc, hm, hb] using ih localFiles (log ++ [f]) a hal
        · simp only [Bool.not_eq_true] at hb
          simpa [fetchGo, hc, hm, hb] using hal
      | ok c =>
        by_cases hw : writeOk f = true
        · simpa [fetchGo, hc, hm, hw] using ih (localFiles ++ [f]) (log ++ [f]) a hal
        · simp only [Bool.not_eq_true] at hw
          simpa [fetchGo, hc, hm, hw] using hal
    · simpa [fetchGo, hc] using ih localFiles log a ha

theorem fetchGo_requested_missing (mirror : GoStr → MirrorResp) (writeOk : GoStr → Bool)
    (fs : List GoStr) : ∀ (localFiles log : List GoStr) (a : GoStr),
    a ∈ (fetchGo mirror writeOk fs localFiles log).2 →
    a ∈ log ∨ a = gs "SHA256.sig" ∨ a ∉ localFiles := by
  induction fs with
  | nil => intro localFiles log a ha; exact Or.inl (by simpa [fetchGo] using ha)
  | cons f rest ih =>
    intro localFiles log a ha
    by_cases hc : (goStrEq f (gs "SHA256.sig") || !memStr localFiles f) = true
    · have hreq : f = gs "SHA256.sig" ∨ f ∉ localFiles := by
        have hc2 : goStrEq f (gs "SHA256.sig") = true ∨ (!memStr localFiles f) = true := by
          simpa using hc
        rcases hc2 with h | h
        · exact Or.inl ((goStrEq_eq_true _ _).1 h)
        · exact Or.inr (fun hmem => by
            have hms : memStr localFiles f = false := by simpa using h
            exact absurd ((memStr_eq_true _ _).2 hmem) (by simp [hms]))
      have hstep : a ∈ log ++ [f] → a ∈ log ∨ a = gs "SHA256.sig" ∨ a ∉ localFiles := by
        intro hin
        rcases List.mem_append.1 hin with h | h
        · exact Or.inl h
        · have : a = f := List.mem_singleton.1 h
          subst this
          exact Or.inr hreq
      cases hm : mirror f with
      | netErr => exact hstep (by simpa [fetchGo, hc, hm] using ha)
      | notFound =>
        by_cases hb : goStrEq f (gs "bsd.mp") = true
        · have ha2 : a ∈ (fetchGo mirror writeOk rest localFiles (log ++ [f])).2 := by
            simpa [fetchGo, hc, hm, hb] using ha
          rcases ih localFiles (log ++ [f]) a ha2 with h | h
          · exact hstep h
          · exact Or.inr h
        · simp only [Bool.not_eq_true] at hb
          exact hstep (by simpa [fetchGo, hc, hm, hb] using ha)
      | ok c =>
        by_cases hw : writeOk f = true
        · have ha2 : a ∈ (fetchGo mirror writeOk rest (localFiles ++ [f]) (log ++ [f])).2 := by
            simpa [fetchGo, hc, hm, hw] using ha
          rcases ih (localFiles ++ [f]) (log ++ [f]) a ha2 with h | h | h
          · exact hstep h
          · exact Or.inr (Or.inl h)
          · exact Or.inr (Or.inr (fun hmem => h (List.mem_append_left _ hmem)))
        · simp only [Bool.not_eq_true] at hw
          exact hstep (by simpa [fetchGo, hc, hm, hw] using ha)
    · rcases ih localFiles log a (by simpa [fetchGo, hc] using ha) with h | h
      · exact Or.inl h
      · exact Or.inr h

theorem fetchGo_404_fatal (mirror : GoStr → MirrorResp) (writeOk : GoStr → Bool)
    (fs : List GoStr) : ∀ (localFiles log : List GoStr) (a : GoStr),
    a ∈ (fetchGo mirror writeOk fs localFiles log).2 →
    a ∉ log → a ≠ gs "bsd.mp" → mirror a = .notFound →
    ∃ e, (fetchGo mirror writeOk fs localFiles log).1 = .error e := by
  induction fs with
  | nil =>
    intro localFiles log a ha hnl _ _
    exact absurd (by simpa [fetchGo] using ha) hnl
  | cons f rest ih =>
    intro localFiles log a ha hnl hnb h404
    by_cases hc : (goStrEq f (gs "SHA256.sig") || !memStr localFiles f) = true
    · cases hm : mirror f with
      | netErr => exact ⟨.net f, by simp [fetchGo, hc, hm]⟩
      | notFound =>
        by_cases hb : goStrEq f (gs "bsd.mp") = true
        · have hfb : f = gs "bsd.mp" := (goStrEq_eq_true _ _).1 hb
          have hanf : a ≠ f := fun he => hnb (he ▸ hfb)
          have ha2 : a ∈ (fetchGo mirror writeOk rest localFiles (log ++ [f])).2 := by
            simpa [fetchGo, hc, hm, hb] using ha
          have hnl2 : a ∉ log ++ [f] := by
            intro hin
            rcases List.mem_append.1 hin with h | h
            · exact hnl h
            · exact hanf (List.mem_singleton.1 h)
          obtain ⟨e, he⟩ := ih localFiles (log ++ [f]) a ha2 hnl2 hnb h404
          exact ⟨e, by simpa [fetchGo, hc, hm, hb] using he⟩
        · exact ⟨.missing f, by simp only [Bool.not_eq_true] at hb; simp [fetchGo, hc, hm, hb]⟩
      | ok c =>
        by_cases hw : writeOk f = true
        · have hanf : a ≠ f := fun he => by rw [he, hm] at h404; exact MirrorResp.noConfusion h404
          have ha2 : a ∈ (fetchGo mirror writeOk rest (localFiles ++ [f]) (log ++ [f])).2 := by
            simpa [fetchGo, hc, hm, hw] using ha
          have hnl2 : a ∉ log ++ [f] := by
            intro hin
            rcases List.mem_append.1 hin with h | h
            · exact hnl h
            · exact hanf (List.mem_singleton.1 h)
          obtain ⟨e, he⟩ := ih (localFiles ++ [f]) (log ++ [f]) a ha2 hnl2 hnb h404
          exact ⟨e, by simpa [fetchGo, hc, hm, hw] using he⟩
        · exact ⟨.writeFail f, by simp only [Bool.not_eq_true] at hw; simp [fetchGo, hc, hm, hw]⟩
    · obtain ⟨e, he⟩ := ih localFiles log a (by simpa [fetchGo, hc] using ha) hnl hnb h404
      exact ⟨e, by simpa [fetchGo, hc] using he⟩

theorem fetchGo_success (mirror : GoStr → MirrorResp) (writeOk : GoStr → Bool)
    (H : ∀ f : GoStr, (∃ c, mirror f = .ok c ∧ writeOk f = true) ∨
        (f = gs "bsd.mp" ∧ mirror f = .notFound))
    (fs : List GoStr) : ∀ (localFiles log : List GoStr),
    ∃ l, (fetchGo mirror writeOk fs localFiles log).1 = .ok l := by
  induction fs with
  | nil => intro localFiles log; exact ⟨localFiles, by simp [fetchGo]⟩
  | cons f rest ih =>
    intro localFiles log
    by_cases hc : (goStrEq f (gs "SHA256.sig") || !memStr localFiles f) = true
    · rcases H f with ⟨c, hm, hw⟩ | ⟨hb, hm⟩
      · obtain ⟨l, hl⟩ := ih (localFiles ++ [f]) (log ++ [f])
        exact ⟨l, by simpa [fetchGo, hc, hm, hw] using hl⟩
      · have hbeq : goStrEq f (gs "bsd.mp") = true := hb ▸ goStrEq_self f
        obtain ⟨l, hl⟩ := ih localFiles (log ++ [f])
        exact ⟨l, by simpa [fetchGo, hc, hm, hbeq] using hl⟩
    · obtain ⟨l, hl⟩ := ih localFiles log
      exact ⟨l, by simpa [fetchGo, hc] using hl⟩

theorem newSetListL_cons (sv : GoStr) :
    newSetListL sv = gs "SHA256.sig" :: (newSetListL sv).tail := rfl

theorem fetchGo_sig_requested (mirror : GoStr → MirrorResp) (writeOk : GoStr → Bool)
    (rest localFiles log : List GoStr) :
    gs "SHA256.sig" ∈ (fetchGo mirror writeOk (gs "SHA256.sig" :: rest) localFiles log).2 := by
  have hsig : gs "SHA256.sig" ∈ log ++ [gs "SHA256.sig"] :=
    List.mem_append_right _ (List.mem_singleton.2 rfl)
  have hc : (goStrEq (gs "SHA256.sig") (gs "SHA256.sig") || !memStr localFiles (gs "SHA256.sig")) = true := by
    simp [goStrEq_self]
  cases hm : mirror (gs "SHA256.sig") with
  | netErr => simp [fetchGo, hc, hm]
  | notFound =>
    have hb : goStrEq (gs "SHA256.sig") (gs "bsd.mp") = false := by decide
    simp [fetchGo, hc, hm, hb]
  | ok c =>
    by_cases hw : writeOk (gs "SHA256.sig") = true
    · simpa [fetchGo, hc, hm, hw] using
        fetchGo_log_mono mirror writeOk rest (localFiles ++ [gs "SHA256.sig"])
          (log ++ [gs "SHA256.sig"]) (gs "SHA256.sig") hsig
    · simp only [Bool.not_eq_true] at hw
      simp [fetchGo, hc, hm, hw]

/-! ### Claim theorems -/

/-- C1 (counterexample): with every provisioning step succeeding, a
transcript in which the first awaited pattern (`boot>$`) never appears makes
the dialogue engine abort with a timeout and send nothing — yet `Build`
returns success, not an error: the `ExpectBatch` result is discarded. -/
theorem c1_build_ok_despite_timeout :
    (runBatch (buildBatch (gs "amd64")) [false]).1
      = Except.error (DialogueErr.timeout (gs "boot>$"))
    ∧ (runBatch (buildBatch (gs "amd64")) [false]).2 = []
    ∧ (BuildT (gs "amd64") true true true true [false]).1 = Except.ok () := by
  exact ⟨rfl, rfl, rfl⟩

/-- C1 (amended): for every architecture, if the first awaited pattern of
the console dialogue never appears, the dialogue aborts with a timeout
error and no send steps are performed; but `Build` discards the dialogue
result and returns success (no error) for that architecture. -/
theorem c1_dialogue_abort_not_reported (arch : GoStr) (bs : List Bool) (d : Bool) :
    (runBatch (buildBatch arch) (false :: bs)).2 = []
    ∧ (runBatch (buildBatch arch) (false :: bs)).1
      = Except.error (DialogueErr.timeout (gs "boot>$"))
    ∧ (BuildT arch true true d true (false :: bs)).1 = Except.ok () := by
  exact ⟨rfl, rfl, rfl⟩

/-- C2: evaluating the configuration table at `dest = /tmp/openbsd/7.4`
(release 7.4), the invariant "launch arguments reference the provisioner's
disk path" holds for amd64, i386, armv7 and riscv64 but FAILS for arm64
(whose `-drive` references `dest/amd64/disk.raw`) and for octeon (whose
`-drive` references `dest/mips64/disk.raw`), while `Build` provisions
`dest/arm64/disk.raw` resp. `dest/octeon/disk.raw`. -/
theorem c2_disk_path_mismatch :
    ((mkSets (gs "/tmp/openbsd/7.4") (gs "74")).map
        (checkDiskInv (gs "/tmp/openbsd/7.4"))
      = [false, true, true, false, true, true])
    ∧ ((mkSets (gs "/tmp/openbsd/7.4") (gs "74")).map drivePathOf
      = [gs "/tmp/openbsd/7.4/amd64/disk.raw", gs "/tmp/openbsd/7.4/amd64/disk.raw",
         gs "/tmp/openbsd/7.4/i386/disk.raw", gs "/tmp/openbsd/7.4/mips64/disk.raw",
         gs "/tmp/openbsd/7.4/armv7/disk.raw", gs "/tmp/openbsd/7.4/riscv64/disk.raw"])
    ∧ ((mkSets (gs "/tmp/openbsd/7.4") (gs "74")).map
        (fun t => buildDiskPath (gs "/tmp/openbsd/7.4") t.arch)
      = [gs "/tmp/openbsd/7.4/arm64/disk.raw", gs "/tmp/openbsd/7.4/amd64/disk.raw",
         gs "/tmp/openbsd/7.4/i386/disk.raw", gs "/tmp/openbsd/7.4/octeon/disk.raw",
         gs "/tmp/openbsd/7.4/armv7/disk.raw", gs "/tmp/openbsd/7.4/riscv64/disk.raw"]) := by
  exact ⟨by decide, by decide, by decide⟩

/-- C3: `Verify` decides presence by stat'ing the bare file name, i.e. in
the process working directory, not in the artifact directory. With the
release-7.4 set and an empty working directory, `Verify` performs NO
signify invocation and succeeds even when every signature check would fail;
a file name present in the working directory is what triggers an
invocation (and a failing one is fatal). -/
theorem c3_verify_stats_cwd :
    verifyGo [] (fun _ => false) (newSetListL (gs "74")) = (Except.ok (), [])
    ∧ verifyGo [gs "base74.tgz"] (fun _ => false) (newSetListL (gs "74"))
      = (Except.error (.failed (gs "base74.tgz")), [gs "base74.tgz"]) := by
  exact ⟨rfl, rfl⟩

/-- C4 (counterexample): a run in which only the `dd` overlay copy fails
returns success with the full event trace — and that trace contains no
`logged` event: the overlay failure is not logged (its error is discarded
by `ddcmd.Run()`), refuting the "is logged" half of the claim. -/
theorem c4_build_ok_no_log_on_dd_failure :
    BuildT (gs "amd64") true true false true []
      = (Except.ok (), [Event.makeRaw, Event.serverStart, Event.imgCreate, Event.ddRun,
          Event.spawn, Event.expectRun, Event.qemuClose, Event.serverClose, Event.termRestore])
    ∧ ∀ msg : GoStr, Event.logged msg ∉ (BuildT (gs "amd64") true true false true []).2 := by
  refine ⟨rfl, fun msg => ?_⟩
  simp [BuildT]

/-- C4 (amended): failure of the raw-image creation command makes `Build`
return an error, while a failure of the overlay block-copy neither fails
`Build` nor is logged: its outcome is discarded, so the run is identical to
a successful copy, and no run of `Build` emits any log event. -/
theorem c4_dd_failure_silent (arch : GoStr) (d s : Bool) (dial : List Bool) :
    (BuildT arch true false d s dial).1 = Except.error BuildErr.imgCreateFail
    ∧ (∀ (m i s2 : Bool) (dial2 : List Bool),
        BuildT arch m i false s2 dial2 = BuildT arch m i true s2 dial2)
    ∧ (∀ (m i d2 s2 : Bool) (dial2 : List Bool) (msg : GoStr),
        Event.logged msg ∉ (BuildT arch m i d2 s2 dial2).2) := by
  refine ⟨rfl, fun m i s2 dial2 => rfl, fun m i d2 s2 dial2 msg => ?_⟩
  cases m <;> cases i <;> cases s2 <;> simp [BuildT]

/-- C5 (counterexample): the `/disklabel` response body is not the raw
`diskLayout` constant. -/
theorem c5_body_not_raw_constant :
    (serve [] .GET (gs "/disklabel") [] true true 0).2 ≠ HResp.ok diskLayoutL := by
  decide

/-- C5 (amended): every GET for `/disklabel` succeeds with body equal to
the `diskLayout` constant as rendered by `fmt.Fprintf` with the constant as
format string: each `%%` becomes `%`, so the body reads `95%` and differs
from the raw constant (which holds the characters `95%%`). -/
theorem c5_disklabel_formatted (dir : List (GoStr × GoStr)) (body : GoStr)
    (createOk copyOk : Bool) (n : Nat) :
    serve dir .GET (gs "/disklabel") body createOk copyOk n
      = (dir, HResp.ok (goFmtNoArgs diskLayoutL))
    ∧ goFmtNoArgs diskLayoutL = gs "/\t5G-*\t95%\nswap\t1G\n"
    ∧ goFmtNoArgs diskLayoutL ≠ diskLayoutL := by
  exact ⟨rfl, by decide, by decide⟩

/-- C7: any POST (whatever its path) with body `B` writes `B` verbatim to
`sys.diff.b64` in the artifact directory, replacing prior content: after a
POST of `B` followed by one of `B2`, the result file holds exactly `B2`
(last write wins, no append), both POSTs answering with the empty success
response. -/
theorem c7_post_last_write_wins (dir : List (GoStr × GoStr)) (p1 p2 B B2 : GoStr) :
    lookupAssoc (serve (serve dir .POST p1 B true true 0).1 .POST p2 B2 true true 0).1
      (gs "sys.diff.b64") = some B2
    ∧ (serve (serve dir .POST p1 B true true 0).1 .POST p2 B2 true true 0).2 = HResp.empty
    ∧ (serve dir .POST p1 B true true 0).2 = HResp.empty := by
  refine ⟨?_, rfl, rfl⟩
  show lookupAssoc (setFile (setFile dir (gs "sys.diff.b64") B) (gs "sys.diff.b64") B2)
    (gs "sys.diff.b64") = some B2
  exact lookup_setFile_self _ _ _

/-- C10: the POST handler creates (truncates) `sys.diff.b64` before
draining the body, so when the body copy fails after `n` delivered bytes
the handler answers with the server-error status while the result file is
left holding exactly that possibly-empty prefix `B.take n` of the new body
— whatever the file held before is gone, so an error response does not
mean the result file is unchanged. -/
theorem c10_post_truncates_on_failure (dir : List (GoStr × GoStr)) (p B : GoStr) (n : Nat) :
    serve dir .POST p B true false n
      = (setFile dir (gs "sys.diff.b64") (B.take n), HResp.serverError)
    ∧ lookupAssoc (serve dir .POST p B true false n).1 (gs "sys.diff.b64")
      = some (B.take n) := by
  exact ⟨rfl, lookup_setFile_self _ _ _⟩

/-- C6: a GET for `/pub/<f>` (a plain file name `f`) has its path rewritten
by `strings.Replace(path, "/pub", "/", 1)` and handed to the static file
server rooted at the artifact directory; after the file server's lexical
path cleaning the served object is `/<f>`, so when `f` exists in the
directory the response is exactly that file's bytes, and otherwise the file
server's standard not-found response. -/
theorem c6_pub_static_serving (dir : List (GoStr × GoStr)) (f : GoStr)
    (h1 : '/' ∉ f) (h2 : f ≠ []) (h3 : f ≠ gs ".") (h4 : f ≠ gs "..") :
    cleanComps (replaceFirst (gs "/pub") (gs "/") ((gs "/pub/") ++ f)) = [f]
    ∧ serve dir .GET ((gs "/pub/") ++ f) [] true true 0
      = (dir, match lookupAssoc dir f with
              | some body => HResp.ok body
              | none => HResp.notFound) := by
  have hne : f.isEmpty = false := by
    cases f
    · exact absurd rfl h2
    · rfl
  have hdot : goStrEq f (gs ".") = false := goStrEq_eq_false h3
  have hdd : goStrEq f (gs "..") = false := goStrEq_eq_false h4
  have hclean : cleanComps ('/' :: '/' :: f) = [f] := by
    unfold cleanComps
    rw [show splitSlash ('/' :: '/' :: f) = [] :: [] :: splitSlash f from rfl,
      splitSlash_noSlash f h1]
    simp [List.filter, hne, hdot, hdd]
  have hrw : replaceFirst (gs "/pub") (gs "/") ((gs "/pub/") ++ f) = '/' :: '/' :: f := rfl
  refine ⟨hrw ▸ hclean, ?_⟩
  have hfs : fileServer dir ('/' :: '/' :: f)
      = (match cleanComps ('/' :: '/' :: f) with
         | [] => HResp.dirIndex
         | [name] =>
           (match lookupAssoc dir name with
            | some body => HResp.ok body
            | none => HResp.notFound)
         | _ :: _ :: _ => HResp.notFound) := rfl
  show (dir, fileServer dir ('/' :: '/' :: f)) = _
  rw [hfs, hclean]

/-- C6 (witness): a two-file artifact directory; `/pub/bsd` answers with
exactly the stored bytes of `bsd`. -/
theorem c6_pub_static_serving_witness :
    ('/' ∉ gs "bsd" ∧ gs "bsd" ≠ [] ∧ gs "bsd" ≠ gs "." ∧ gs "bsd" ≠ gs "..")
    ∧ serve [(gs "bsd", gs "KERNEL"), (gs "SHA256", gs "sums")] .GET (gs "/pub/bsd")
        [] true true 0
      = ([(gs "bsd", gs "KERNEL"), (gs "SHA256", gs "sums")], HResp.ok (gs "KERNEL")) := by
  refine ⟨⟨by decide, by decide, by decide, by decide⟩, ?_⟩
  have h := (c6_pub_static_serving [(gs "bsd", gs "KERNEL"), (gs "SHA256", gs "sums")]
    (gs "bsd") (by decide) (by decide) (by decide) (by decide)).2
  have hpath : gs "/pub/bsd" = (gs "/pub/") ++ (gs "bsd") := rfl
  rw [hpath, h]
  rfl

/-- C8: over the substituted artifact set of any release: the detached
signature `SHA256.sig` is always requested from the mirror, even when
present locally; every other requested file was locally missing; a
requested file other than `bsd.mp` answered with 404 makes `Fetch` return
an error; and when the mirror serves everything except a 404 for `bsd.mp`
(and local writes succeed), `Fetch` succeeds — the `bsd.mp` 404 is
tolerated and the file skipped. -/
theorem c8_fetch_policy (sv : GoStr) (localFiles : List GoStr)
    (mirror : GoStr → MirrorResp) (writeOk : GoStr → Bool) :
    gs "SHA256.sig" ∈ (FetchR mirror writeOk sv localFiles).2
    ∧ (∀ f, f ∈ (FetchR mirror writeOk sv localFiles).2 →
        f ≠ gs "SHA256.sig" → f ∉ localFiles)
    ∧ (∀ f, f ∈ (FetchR mirror writeOk sv localFiles).2 →
        f ≠ gs "bsd.mp" → mirror f = .notFound →
        ∃ e, (FetchR mirror writeOk sv localFiles).1 = .error e)
    ∧ ((∀ f, f ≠ gs "bsd.mp" → ∃ c, mirror f = .ok c) →
        mirror (gs "bsd.mp") = .notFound →
        (∀ f, writeOk f = true) →
        ∃ l, (FetchR mirror writeOk sv localFiles).1 = .ok l) := by
  refine ⟨?_, ?_, ?_, ?_⟩
  · rw [FetchR, newSetListL_cons]
    exact fetchGo_sig_requested mirror writeOk _ localFiles []
  · intro f hf hne
    rcases fetchGo_requested_missing mirror writeOk _ localFiles [] f hf with h | h | h
    · exact absurd h (List.not_mem_nil f)
    · exact absurd h hne
    · exact h
  · intro f hf hnb h404
    exact fetchGo_404_fatal mirror writeOk _ localFiles [] f hf (List.not_mem_nil f) hnb h404
  · intro hok h404 hw
    refine fetchGo_success mirror writeOk ?_ _ localFiles []
    intro f
    by_cases hb : f = gs "bsd.mp"
    · exact Or.inr ⟨hb, hb ▸ h404⟩
    · obtain ⟨c, hc⟩ := hok f hb
      exact Or.inl ⟨c, hc, hw f⟩

/-- A mirror serving every file except `bsd.mp`, which is 404. -/
def mirrorA : GoStr → MirrorResp :=
  fun f => if goStrEq f (gs "bsd.mp") then .notFound else .ok (gs "x")

/-- A mirror answering 404 for everything. -/
def mirrorB : GoStr → MirrorResp := fun _ => .notFound

/-- Local file writes that always succeed. -/
def allWrites : GoStr → Bool := fun _ => true

/-- A local artifact directory already holding the signature and `bsd`. -/
def localSeed : List GoStr := [gs "SHA256.sig", gs "bsd"]

/-- C8 (witness): on release 7.4 with `SHA256.sig` and `bsd` already local,
the signature is still requested; `base74.tgz`, which got requested, was
indeed missing locally; an all-404 mirror makes `Fetch` fail (already at
the signature); and a mirror that is 404 only on `bsd.mp` lets `Fetch`
succeed. -/
theorem c8_fetch_policy_witness :
    gs "SHA256.sig" ∈ (FetchR mirrorA allWrites (gs "74") localSeed).2
    ∧ gs "base74.tgz" ∉ localSeed
    ∧ (∃ e, (FetchR mirrorB allWrites (gs "74") []).1 = .error e)
    ∧ (∃ l, (FetchR mirrorA allWrites (gs "74") localSeed).1 = .ok l) := by
  refine ⟨(c8_fetch_policy (gs "74") localSeed mirrorA allWrites).1,
    (c8_fetch_policy (gs "74") localSeed mirrorA allWrites).2.1 (gs "base74.tgz")
      (by decide) (by decide),
    (c8_fetch_policy (gs "74") [] mirrorB allWrites).2.2.1 (gs "SHA256.sig")
      (by decide) (by decide) rfl,
    (c8_fetch_policy (gs "74") localSeed mirrorA allWrites).2.2.2 ?_ ?_ ?_⟩
  · intro f hf
    exact ⟨gs "x", by simp [mirrorA, goStrEq_eq_false hf]⟩
  · simp [mirrorA, goStrEq_self]
  · intro f
    rfl

/-- C9: in every run of `Build`, whenever the emulator spawn happens the
control server's start strictly precedes it in the event trace, and on
every path that returns after the server was started — image-creation
failure, spawn failure, dialogue failure/timeout, or success — the
deferred `ser.Close` appears in the trace after the start and before the
return. -/
theorem c9_server_lifecycle (arch : GoStr) (m i d s : Bool) (dial : List Bool) :
    (Event.spawn ∈ (BuildT arch m i d s dial).2 →
      Event.serverStart ∈ (BuildT arch m i d s dial).2.takeWhile
        (fun e => e != Event.spawn))
    ∧ (Event.serverStart ∈ (BuildT arch m i d s dial).2 →
      Event.serverClose ∈ (BuildT arch m i d s dial).2.dropWhile
        (fun e => e != Event.serverStart)) := by
  have ht : (BuildT arch m i d s dial).2 =
      (if m then
        if i then
          if s then
            [Event.makeRaw, Event.serverStart, Event.imgCreate, Event.ddRun, Event.spawn,
             Event.expectRun, Event.qemuClose, Event.serverClose, Event.termRestore]
          else
            [Event.makeRaw, Event.serverStart, Event.imgCreate, Event.ddRun, Event.spawn,
             Event.serverClose, Event.termRestore]
        else [Event.makeRaw, Event.serverStart, Event.imgCreate, Event.serverClose,
              Event.termRestore]
      else [Event.makeRaw]) := by
    cases m <;> cases i <;> cases s <;> rfl
  rw [ht]
  cases m <;> cases i <;> cases s <;> decide

/-- C9 (witness): the successful run: the server start precedes the spawn,
and the server close follows the start. -/
theorem c9_server_lifecycle_witness :
    Event.serverStart ∈ (BuildT (gs "amd64") true true true true []).2.takeWhile
      (fun e => e != Event.spawn)
    ∧ Event.serverClose ∈ (BuildT (gs "amd64") true true true true []).2.dropWhile
      (fun e => e != Event.serverStart) := by
  exact ⟨(c9_server_lifecycle (gs "amd64") true true true true []).1 (by decide),
    (c9_server_lifecycle (gs "amd64") true true true true []).2 (by decide)⟩

end Goru
